import Mathlib

/-!
Verification of the request-directive parser and conditional-forwarding engine
of the WebHook repository (src/server.js). Strings are modelled as lists of
characters; the JavaScript regular-expression scans of parseWebhookPath are
modelled as explicit left-to-right scanners over segment starts; platform
builtins (decodeURIComponent, the WHATWG URL constructor) are modelled as
Option-returning functions, with none standing for a thrown exception.
-/

namespace WebHook

/-- Character class of sanitizeId in src/server.js: [a-zA-Z0-9_-]. -/
def isIdChar (c : Char) : Bool :=
  ('a' ≤ c && c ≤ 'z') || ('A' ≤ c && c ≤ 'Z') || ('0' ≤ c && c ≤ '9') || c = '_' || c = '-'

/-- sanitizeId from src/server.js: strip every character outside [a-zA-Z0-9_-];
an empty result (or empty input) is reported as null, here none. -/
def sanitizeId (l : List Char) : Option (List Char) :=
  let s := l.filter isIdChar
  if s = [] then none else some s

/-- Drop the list p from the front of l, or fail. -/
def dropPref : List Char → List Char → Option (List Char)
  | [], l => some l
  | _ :: _, [] => none
  | p :: ps, c :: cs => if p = c then dropPref ps cs else none

/-- The anchored replace of the leading /webhook/ in parseWebhookPath. -/
def stripWebhookRoot (l : List Char) : List Char :=
  match dropPref ("/webhook/".data) l with
  | some r => r
  | none => l

/-- The three response content types of the res: directive. -/
inductive RType
  | plain
  | json
  | html
deriving DecidableEq, Repr

/-- The literal characters of a response type keyword. -/
def RType.chars : RType → List Char
  | .plain => "plain".data
  | .json => "json".data
  | .html => "html".data

/-- Lookahead of the res: and fullbody: scans: the next character is a slash
or the string has ended. -/
def boundaryOk : List Char → Bool
  | [] => true
  | '/' :: _ => true
  | _ => false

/-- Match one of the type keywords plain, json, html as a literal, returning
the remainder, trying the alternatives in the order of the source regex. -/
def typeTokenAt (l : List Char) : Option (RType × List Char) :=
  match dropPref ("plain".data) l with
  | some r => some (.plain, r)
  | none =>
    match dropPref ("json".data) l with
    | some r => some (.json, r)
    | none =>
      match dropPref ("html".data) l with
      | some r => some (.html, r)
      | none => none

/-- Match of res: followed by three digits and a type keyword, with the
slash-or-end lookahead, at the head of the list. -/
def matchResAt : List Char → Option (Char × Char × Char × RType)
  | 'r' :: 'e' :: 's' :: ':' :: d1 :: d2 :: d3 :: rest =>
    if d1.isDigit && d2.isDigit && d3.isDigit then
      match typeTokenAt rest with
      | some (t, after) => if boundaryOk after then some (d1, d2, d3, t) else none
      | none => none
    else none
  | _ => none

/-- Generic left-to-right scan over a parameter string, attempting the matcher
f at the start of the string and after every slash, exactly like the leading
group of the source regexes. -/
def scanSeg {α : Type} (f : List Char → Option α) : List Char → Bool → Option α
  | [], _ => none
  | c :: rest, atStart =>
    match if atStart then f (c :: rest) else none with
    | some a => some a
    | none => scanSeg f rest (c = '/')

/-- First res: segment of the parameter string, as found by the source regex. -/
def findRes (ps : List Char) : Option (Char × Char × Char × RType) :=
  scanSeg matchResAt ps true

/-- Match of the literal fullbody:true with the slash-or-end lookahead. -/
def matchFullbodyAt (l : List Char) : Option Unit :=
  match dropPref ("fullbody:true".data) l with
  | some rest => if boundaryOk rest then some () else none
  | none => none

/-- Whether the parameter string carries a fullbody:true segment. -/
def findFullbody (ps : List Char) : Bool :=
  (scanSeg matchFullbodyAt ps true).isSome

/-- Match of tag: followed by at least one character other than a slash; the
greedy value runs to the next slash or the end of the string. -/
def matchTagAt : List Char → Option (List Char)
  | 't' :: 'a' :: 'g' :: ':' :: rest =>
    let v := rest.takeWhile (fun c => c ≠ '/')
    if v = [] then none else some v
  | _ => none

/-- First tag: segment value of the parameter string (still percent-encoded). -/
def findTag (ps : List Char) : Option (List Char) :=
  scanSeg matchTagAt ps true

/-- Split the list at the first occurrence of two consecutive dollar signs,
returning the part before them, as the lazy group of the bounded fwd regex. -/
def splitAtDD : List Char → Option (List Char)
  | '$' :: '$' :: _ => some []
  | c :: rest => (splitAtDD rest).map (fun l => c :: l)
  | [] => none

/-- Match of the bounded form at the head of the list: the characters between
the two dollar-sign delimiters after fwd. -/
def matchFwdBoundedAt : List Char → Option (List Char)
  | 'f' :: 'w' :: 'd' :: ':' :: '$' :: '$' :: rest => splitAtDD rest
  | _ => none

/-- First bounded fwd candidate of the parameter string. -/
def findFwdBounded (ps : List Char) : Option (List Char) :=
  scanSeg matchFwdBoundedAt ps true

/-- Whitespace class of the ECMAScript regex escape backslash-s. -/
def isSpaceJS (c : Char) : Bool :=
  let n := c.toNat
  n = 0x20 || n = 0x09 || n = 0x0a || n = 0x0b || n = 0x0c || n = 0x0d ||
  n = 0xa0 || n = 0x1680 || (0x2000 ≤ n && n ≤ 0x200a) || n = 0x2028 ||
  n = 0x2029 || n = 0x202f || n = 0x205f || n = 0x3000 || n = 0xfeff

/-- Match of the legacy fwd form: fwd: followed by http or https, a colon, two
slashes and at least one non-whitespace character. The returned value is the
whole remainder of the parameter string starting at the URL, which is what the
source code then cuts at the next recognized parameter. -/
def matchFwdLegacyAt : List Char → Option (List Char)
  | 'f' :: 'w' :: 'd' :: ':' :: rest =>
    match rest with
    | 'h' :: 't' :: 't' :: 'p' :: 's' :: ':' :: '/' :: '/' :: c :: _ =>
      if isSpaceJS c then none else some rest
    | 'h' :: 't' :: 't' :: 'p' :: ':' :: '/' :: '/' :: c :: _ =>
      if isSpaceJS c then none else some rest
    | _ => none
  | _ => none

/-- First legacy fwd candidate of the parameter string. -/
def findFwdLegacy (ps : List Char) : Option (List Char) :=
  scanSeg matchFwdLegacyAt ps true

/-- Recognizer of the next-parameter alternatives of the legacy fwd cut:
res: with three digits and a type keyword, the literal fullbody:true, or
tag: with at least one non-slash character, each as a plain match with no
end-of-segment lookahead, exactly as in the source regex. -/
def isNextParamAt (l : List Char) : Bool :=
  (match l with
   | 'r' :: 'e' :: 's' :: ':' :: d1 :: d2 :: d3 :: rest =>
     d1.isDigit && d2.isDigit && d3.isDigit && (typeTokenAt rest).isSome
   | _ => false) ||
  (dropPref ("fullbody:true".data) l).isSome ||
  (match l with
   | 't' :: 'a' :: 'g' :: ':' :: c :: _ => c ≠ '/'
   | _ => false)

/-- Index of the first slash that is followed by a recognized parameter. -/
def findNextParamIdx : List Char → Option Nat
  | [] => none
  | '/' :: rest =>
    if isNextParamAt rest then some 0
    else (findNextParamIdx rest).map (fun i => i + 1)
  | _ :: rest => (findNextParamIdx rest).map (fun i => i + 1)

/-- Cut of the legacy forward URL: it runs to the slash that precedes the next
recognized parameter, or to the end of the parameter string. -/
def legacyUrlOf (rem : List Char) : List Char :=
  match findNextParamIdx rem with
  | some i => rem.take i
  | none => rem

/-- Modelled builtin: the protocol field of a parsed WHATWG URL, such as the
characters of http followed by a colon. -/
structure JsURL where
  protocol : List Char
deriving DecidableEq, Repr

/-- Characters allowed after the first character of a URL scheme. -/
def isSchemeChar (c : Char) : Bool :=
  c.isAlpha || c.isDigit || c = '+' || c = '-' || c = '.'

/-- Split a candidate URL into its scheme (first character a letter, then
scheme characters, then a colon) and the remainder after the colon. -/
def splitScheme (l : List Char) : Option (List Char × List Char) :=
  match l with
  | [] => none
  | c :: rest =>
    if c.isAlpha then
      let s := rest.takeWhile isSchemeChar
      match rest.drop s.length with
      | ':' :: r2 => some (c :: s, r2)
      | _ => none
    else none

/-- The special schemes of the WHATWG URL Standard, which require a host. -/
def specialSchemes : List (List Char) :=
  ["http".data, "https".data, "ws".data, "wss".data, "ftp".data, "file".data]

/-- Code points that may not appear in the host of a special-scheme URL
(simplified from the WHATWG forbidden host code points). -/
def isForbiddenHostChar (c : Char) : Bool :=
  c = Char.ofNat 0 || c = '\t' || c = '\n' || c = '\r' || c = ' ' || c = '#' ||
  c = '/' || c = ':' || c = '<' || c = '>' || c = '?' || c = '@' || c = '[' ||
  c = '\\' || c = ']' || c = '^' || c = '|' || c = '%'

/-- Part of the list after the last occurrence of sep, or the whole list. -/
def afterLast (sep : Char) (l : List Char) : List Char :=
  if l.contains sep then (l.reverse.takeWhile (fun c => c ≠ sep)).reverse else l

/-- Split at the last colon, if any, into the host part and the port part. -/
def splitLastColon (l : List Char) : Option (List Char × List Char) :=
  if l.contains ':' then
    let pRev := l.reverse.takeWhile (fun c => c ≠ ':')
    some (l.take (l.length - pRev.length - 1), pRev.reverse)
  else none

/-- Modelled builtin: the WHATWG URL constructor new URL, a platform builtin
that is not part of this repository, simplified to what the source relies on:
scheme extraction with lowercasing, and for the special schemes the
authority-ignore-slashes step followed by host well-formedness (non-empty
host without forbidden code points, digits-only port). A none result stands
for a thrown TypeError. -/
def tryParseURL (l : List Char) : Option JsURL :=
  match splitScheme l with
  | none => none
  | some (scheme0, rest) =>
    let scheme := scheme0.map Char.toLower
    if specialSchemes.contains scheme then
      let afterSlashes := rest.dropWhile (fun c => c = '/')
      let auth := afterSlashes.takeWhile (fun c => c ≠ '/' && c ≠ '?' && c ≠ '#')
      let hostport := afterLast '@' auth
      let hostOk :=
        match splitLastColon hostport with
        | some (h, p) =>
          h ≠ [] && h.all (fun c => !(isForbiddenHostChar c)) && p.all Char.isDigit
        | none =>
          hostport ≠ [] && hostport.all (fun c => !(isForbiddenHostChar c))
      if hostOk then some { protocol := scheme ++ [':'] } else none
    else some { protocol := scheme ++ [':'] }

/-- The protocol test of parseWebhookPath: exactly http: or https:. -/
def isHttpProtocol (u : JsURL) : Bool :=
  u.protocol = "http:".data || u.protocol = "https:".data

/-- Whether a forward URL candidate is accepted by the source: the URL parses
and its protocol is http or https. -/
def urlAccepted (l : List Char) : Bool :=
  match tryParseURL l with
  | some u => isHttpProtocol u
  | none => false

/-- Value of a hexadecimal digit, lower or upper case. -/
def hexVal (c : Char) : Option Nat :=
  if '0' ≤ c && c ≤ '9' then some (c.toNat - 48)
  else if 'a' ≤ c && c ≤ 'f' then some (c.toNat - 87)
  else if 'A' ≤ c && c ≤ 'F' then some (c.toNat - 55)
  else none

/-- First pass of the modelled decodeURIComponent: turn each percent escape
into a byte and keep every other character; a percent sign not followed by
two hexadecimal digits is malformed (none). -/
def pctTokens : List Char → Option (List (Char ⊕ Nat))
  | [] => some []
  | '%' :: rest =>
    match rest with
    | h1 :: h2 :: r =>
      match hexVal h1, hexVal h2 with
      | some v1, some v2 => (pctTokens r).map (fun tl => Sum.inr (16 * v1 + v2) :: tl)
      | _, _ => none
    | _ => none
  | c :: rest => (pctTokens rest).map (fun tl => Sum.inl c :: tl)

/-- Collect the leading run of byte tokens. -/
def takeBytes : List (Char ⊕ Nat) → List Nat × List (Char ⊕ Nat)
  | Sum.inr b :: rest =>
    let p := takeBytes rest
    (b :: p.1, p.2)
  | l => ([], l)

/-- Whether a byte is a UTF-8 continuation byte. -/
def contByte (b : Nat) : Bool := 0x80 ≤ b && b < 0xC0

/-- Strict UTF-8 decoder on bytes: rejects stray continuation bytes, overlong
forms, surrogate code points and values beyond the last code point, exactly
the sequences on which decodeURIComponent throws. -/
def utf8Decode : List Nat → Option (List Char)
  | [] => some []
  | b :: rest =>
    if b < 0x80 then (utf8Decode rest).map (fun cs => Char.ofNat b :: cs)
    else if b < 0xC2 then none
    else if b < 0xE0 then
      match rest with
      | b1 :: r =>
        if contByte b1 then
          (utf8Decode r).map (fun cs => Char.ofNat ((b - 0xC0) * 64 + (b1 - 0x80)) :: cs)
        else none
      | _ => none
    else if b < 0xF0 then
      match rest with
      | b1 :: b2 :: r =>
        if contByte b1 && contByte b2 then
          let cp := (b - 0xE0) * 4096 + (b1 - 0x80) * 64 + (b2 - 0x80)
          if cp < 0x800 || (0xD800 ≤ cp && cp ≤ 0xDFFF) then none
          else (utf8Decode r).map (fun cs => Char.ofNat cp :: cs)
        else none
      | _ => none
    else if b < 0xF5 then
      match rest with
      | b1 :: b2 :: b3 :: r =>
        if contByte b1 && contByte b2 && contByte b3 then
          let cp := (b - 0xF0) * 262144 + (b1 - 0x80) * 4096 + (b2 - 0x80) * 64 + (b3 - 0x80)
          if cp < 0x10000 || cp > 0x10FFFF then none
          else (utf8Decode r).map (fun cs => Char.ofNat cp :: cs)
        else none
      | _ => none
    else none

/-- Length bound used for the termination of decodeTokens. -/
theorem takeBytes_len (l : List (Char ⊕ Nat)) : (takeBytes l).2.length ≤ l.length := by
  induction l with
  | nil => simp [takeBytes]
  | cons x rest ih =>
    cases x with
    | inl c => simp [takeBytes]
    | inr b =>
      simp only [takeBytes, List.length_cons]
      exact Nat.le_succ_of_le ih

/-- Second pass of the modelled decodeURIComponent: UTF-8-decode every maximal
run of bytes, pass the other characters through. -/
def decodeTokens : List (Char ⊕ Nat) → Option (List Char)
  | [] => some []
  | Sum.inl c :: rest => (decodeTokens rest).map (fun cs => c :: cs)
  | Sum.inr b :: rest =>
    let p := takeBytes rest
    match utf8Decode (b :: p.1) with
    | some cs => (decodeTokens p.2).map (fun tl => cs ++ tl)
    | none => none
termination_by l => l.length
decreasing_by
  · simp only [List.length_cons]
    exact Nat.lt_succ_self _
  · simp only [List.length_cons]
    exact Nat.lt_succ_of_le (takeBytes_len rest)

/-- Modelled builtin: ECMAScript decodeURIComponent, a platform builtin that
is not part of this repository; none stands for a thrown URIError. -/
def decodeURIComp (l : List Char) : Option (List Char) :=
  match pctTokens l with
  | some toks => decodeTokens toks
  | none => none

/-- The directive set returned by parseWebhookPath in src/server.js, with the
null fields of the source object modelled as none. -/
structure ParseResult where
  id : Option (List Char) := none
  responseStatus : Option Nat := none
  responseType : Option RType := none
  forwardUrl : Option (List Char) := none
  fullBody : Bool := false
  tag : Option (List Char) := none
  error : Option (List Char) := none
deriving DecidableEq, Repr

/-- Error text for a missing webhook id. -/
def msgMissingId : List Char := "Missing webhook ID".data

/-- Error text for an invalid webhook id. -/
def msgInvalidId : List Char := "Invalid webhook ID".data

/-- Error text for a malformed res parameter. -/
def msgInvalidRes (seg : List Char) : List Char :=
  "Invalid res parameter format: ".data ++ seg

/-- Error text for a forward URL with a rejected protocol. -/
def msgBadProto (u : List Char) : List Char :=
  "Invalid forward URL protocol: ".data ++ u

/-- Error text for an unparsable forward URL. -/
def msgBadUrl (u : List Char) : List Char :=
  "Invalid forward URL: ".data ++ u

/-- The captured res: segment text, as group two of the source regex. -/
def resSegChars (d1 d2 d3 : Char) (t : RType) : List Char :=
  "res:".data ++ [d1, d2, d3] ++ t.chars

/-- Numeric value of the three status digits, as parseInt with radix ten. -/
def digitsToNat (d1 d2 d3 : Char) : Nat :=
  100 * (d1.toNat - 48) + 10 * (d2.toNat - 48) + (d3.toNat - 48)

/-- The inner re-match of the res: segment on the text after the keyword:
three digits followed by exactly one of the type keywords to the end. -/
def innerResMatch (s : List Char) : Option (Nat × RType) :=
  match s with
  | d1 :: d2 :: d3 :: rest =>
    if d1.isDigit && d2.isDigit && d3.isDigit then
      match typeTokenAt rest with
      | some (t, []) => some (digitsToNat d1 d2 d3, t)
      | _ => none
    else none
  | _ => none

/-- The res: step of parseWebhookPath: find the segment, re-match its text,
and set the response clause or the error field. -/
def applyRes (ps : List Char) (r : ParseResult) : ParseResult :=
  match findRes ps with
  | some (d1, d2, d3, t) =>
    match innerResMatch ([d1, d2, d3] ++ t.chars) with
    | some (st, ty) => { r with responseStatus := some st, responseType := some ty }
    | none => { r with error := some (msgInvalidRes (resSegChars d1 d2 d3 t)) }
  | none => r

/-- The fullbody step of parseWebhookPath. -/
def applyFullbody (ps : List Char) (r : ParseResult) : ParseResult :=
  if findFullbody ps then { r with fullBody := true } else r

/-- The tag step of parseWebhookPath; percent decoding may throw. -/
def applyTag (ps : List Char) (r : ParseResult) : Option ParseResult :=
  match findTag ps with
  | some v => (decodeURIComp v).map (fun t => { r with tag := some t })
  | none => some r

/-- The URL validation shared by both fwd forms: accept an http or https URL,
otherwise set the corresponding error text. -/
def checkUrl (u : List Char) (r : ParseResult) : ParseResult :=
  match tryParseURL u with
  | some url =>
    if isHttpProtocol url then { r with forwardUrl := some u }
    else { r with error := some (msgBadProto u) }
  | none => { r with error := some (msgBadUrl u) }

/-- The fwd step of parseWebhookPath: the bounded form takes precedence, the
legacy form is cut at the next recognized parameter. -/
def applyFwd (ps : List Char) (r : ParseResult) : ParseResult :=
  match findFwdBounded ps with
  | some u => checkUrl u r
  | none =>
    match findFwdLegacy ps with
    | some rem => checkUrl (legacyUrlOf rem) r
    | none => r

/-- The substring of the inbound path after the /webhook/ root. -/
def cleanOf (path : List Char) : List Char := stripWebhookRoot path

/-- First path segment after the root: the raw endpoint id. -/
def idRawOf (path : List Char) : List Char :=
  (cleanOf path).takeWhile (fun c => c ≠ '/')

/-- Parameter string after the id segment, empty when there is none. -/
def paramStringOf (path : List Char) : List Char :=
  ((cleanOf path).drop (idRawOf path).length).drop 1

/-- parseWebhookPath from src/server.js, with none for a thrown exception
(the only throwing site is the percent decoding of the tag value). -/
def parseWebhookPath (path : List Char) : Option ParseResult :=
  let cleanPath := cleanOf path
  if cleanPath = [] then
    some { id := none, error := some msgMissingId }
  else
    let ps := paramStringOf path
    match sanitizeId (idRawOf path) with
    | none => some { id := none, error := some msgInvalidId }
    | some i =>
      let r0 : ParseResult := { id := some i }
      if ps = [] then some r0
      else (applyTag ps (applyFullbody ps (applyRes ps r0))).map (applyFwd ps)

/-- Upstream response captured by a successful axios call. -/
structure UpstreamResult where
  status : Nat
  headers : List (List Char × List Char)
  body : List Char
deriving DecidableEq, Repr

/-- Outcome of the upstream call: success with the response, or a failure
(network error, timeout, non-HTTP response) with its message. -/
inductive UpstreamOutcome
  | success (u : UpstreamResult)
  | failure (msg : List Char)
deriving DecidableEq, Repr

/-- Environment of one dispatch: whether the saveRequest and updateRequest
persistence calls succeed, and how the upstream call settles. -/
structure Env where
  saveOk : Bool
  updateOk : Bool
  outcome : UpstreamOutcome
deriving DecidableEq, Repr

/-- Hop-by-hop header names deleted before forwarding (Node lowercases all
inbound header names, so deletion is by lowercase name). -/
def hopByHopNames : List (List Char) :=
  ["connection".data, "keep-alive".data, "proxy-authenticate".data,
   "proxy-authorization".data, "te".data, "trailers".data,
   "transfer-encoding".data, "upgrade".data, "host".data]

/-- Header hygiene of both forwarding functions: drop hop-by-hop headers. -/
def cleanHeaders (hs : List (List Char × List Char)) : List (List Char × List Char) :=
  hs.filter (fun kv => !(hopByHopNames.contains kv.1))

/-- Truncation limit of the stored upstream body. -/
def truncLimit : Nat := 1000

/-- Marker appended to a truncated stored body. -/
def truncMarker : List Char :=
  "\n... [truncated, use /fullbody:true to see complete response]".data

/-- Value of a response header, empty when absent, as the source expression
response.headers of content-type with a fallback of the empty string. -/
def lookupHeader (hs : List (List Char × List Char)) (k : List Char) : List Char :=
  match hs.find? (fun kv => kv.1 = k) with
  | some kv => kv.2
  | none => []

/-- Substring test, as the ECMAScript String.prototype.includes. -/
def containsStr (hay needle : List Char) : Bool :=
  if (dropPref needle hay).isSome then true
  else
    match hay with
    | [] => false
    | _ :: rest => containsStr rest needle

/-- Body-storage rule shared verbatim by forwardRequestAndRespond and
forwardRequestInBackground: keep the body unless fullBody is false, the body
exceeds the limit and the content type is not JSON, in which case store the
first thousand characters plus the marker. -/
def truncateBody (body : List Char) (respHeaders : List (List Char × List Char))
    (fullBody : Bool) : List Char :=
  if !fullBody && body.length > truncLimit then
    let contentType := lookupHeader respHeaders ("content-type".data)
    let isJson := containsStr contentType ("application/json".data)
    if !isJson then body.take truncLimit ++ truncMarker else body
  else body

/-- Fields of the updateRequest patch issued after a forward settles; the
fields a source branch does not write are none (timestamps and durations are
not modelled). -/
structure ForwardUpdate where
  proxied_status : Option Nat := none
  background_forward : Bool := false
  response_status : Option Nat := none
  forward_response_status : Option Nat := none
  forward_response_headers : Option (List (List Char × List Char)) := none
  forward_response_body : Option (List Char) := none
  forward_request_headers : Option (List (List Char × List Char)) := none
  forward_request_body : Option (List Char) := none
  forward_request_method : Option (List Char) := none
  forward_request_url : Option (List Char) := none
  proxy_error : Option (List Char) := none
deriving DecidableEq, Repr

/-- Content-Type value of the synthesized JSON responses. -/
def ctJson : List Char := "application/json; charset=utf-8".data

/-- Content-Type value of the synthesized HTML responses. -/
def ctHtml : List Char := "text/html; charset=utf-8".data

/-- Content-Type value of the synthesized plain-text responses. -/
def ctPlain : List Char := "text/plain; charset=utf-8".data

/-- Body of a response to the original client; the synthesized templates are
kept structured rather than rendered to text. -/
inductive RespBody
  | jsonOk (id method : List Char) (response_status : Nat) (receivedBytes : Nat)
  | htmlPage (id : List Char) (status : Nat) (method : List Char) (bytes : Nat)
  | plainKV (id method : List Char) (status : Nat) (bytes : Nat)
  | text (s : List Char)
  | jsonFail (error message id method : List Char) (status : Nat)
deriving DecidableEq, Repr

/-- One HTTP response to the original client. -/
structure ClientResponse where
  status : Nat
  headers : List (List Char × List Char)
  body : RespBody
deriving DecidableEq, Repr

/-- sendImmediateResponse from src/server.js: the synthesized response for a
given status and type, echoing id, method and the raw body length. -/
def sendImmediateResponse (status : Nat) (ty : RType) (i method rawBody : List Char) :
    ClientResponse :=
  match ty with
  | .json =>
    { status := status, headers := [("Content-Type".data, ctJson)],
      body := .jsonOk i method status rawBody.length }
  | .html =>
    { status := status, headers := [("Content-Type".data, ctHtml)],
      body := .htmlPage i status method rawBody.length }
  | .plain =>
    { status := status, headers := [("Content-Type".data, ctPlain)],
      body := .plainKV i method status rawBody.length }

/-- Result of the synchronous forwarding helper: the response sent to the
original client and the patch stored on the request entry. -/
structure SyncResult where
  client : ClientResponse
  update : ForwardUpdate
deriving DecidableEq, Repr

/-- forwardRequestAndRespond from src/server.js, as a function of the
upstream outcome: on success the client receives the upstream status, headers
and full body while the stored copy of the body may be truncated; on failure
the client receives the structured 502 JSON error and the patch records
status 502 with the error message. -/
def forwardRequestAndRespond (webhookId method : List Char)
    (reqHeaders : List (List Char × List Char)) (rawBody forwardUrl : List Char)
    (fullBody : Bool) (outcome : UpstreamOutcome) : SyncResult :=
  let headers := cleanHeaders reqHeaders
  match outcome with
  | .success u =>
    { client := { status := u.status, headers := u.headers, body := .text u.body },
      update :=
        { proxied_status := some u.status,
          response_status := some u.status,
          forward_response_status := some u.status,
          forward_response_headers := some u.headers,
          forward_response_body := some (truncateBody u.body u.headers fullBody),
          forward_request_headers := some headers,
          forward_request_body := some rawBody,
          forward_request_method := some method,
          forward_request_url := some forwardUrl } }
  | .failure msg =>
    { client :=
        { status := 502, headers := [("Content-Type".data, ctJson)],
          body := .jsonFail ("Upstream request failed".data) msg webhookId method 502 },
      update :=
        { proxy_error := some msg,
          response_status := some 502,
          forward_response_status := some 502,
          forward_response_body := some ("Error: ".data ++ msg),
          forward_request_headers := some headers,
          forward_request_body := some rawBody,
          forward_request_method := some method,
          forward_request_url := some forwardUrl } }

/-- forwardRequestInBackground from src/server.js, as a function of the
upstream outcome: it never touches the original client connection and only
produces the stored patch. -/
def forwardRequestInBackground (method : List Char)
    (reqHeaders : List (List Char × List Char)) (rawBody forwardUrl : List Char)
    (fullBody : Bool) (outcome : UpstreamOutcome) : ForwardUpdate :=
  let headers := cleanHeaders reqHeaders
  match outcome with
  | .success u =>
    { proxied_status := some u.status,
      background_forward := true,
      forward_response_status := some u.status,
      forward_response_headers := some u.headers,
      forward_response_body := some (truncateBody u.body u.headers fullBody),
      forward_request_headers := some headers,
      forward_request_body := some rawBody,
      forward_request_method := some method,
      forward_request_url := some forwardUrl }
  | .failure msg =>
    { proxy_error := some msg,
      background_forward := true,
      forward_response_status := some 502,
      forward_response_body := some ("Error: ".data ++ msg),
      forward_request_headers := some headers,
      forward_request_body := some rawBody,
      forward_request_method := some method,
      forward_request_url := some forwardUrl }

/-- Kind of response sent to the original client, for the dispatch trace. -/
inductive RespKind
  | immediate (status : Nat) (ty : RType)
  | upstream
  | err502
  | err400
  | err500
deriving DecidableEq, Repr

/-- Observable actions of one dispatch, in program order: the saveRequest
call, the two socket notifications, the start of an upstream forward, and the
response to the original client. -/
inductive Event
  | save
  | notifyCreated
  | forwardStart
  | notifyUpdated
  | respond (k : RespKind)
deriving DecidableEq, Repr

/-- Trace of forwardRequestInBackground: the upstream call starts, then the
request entry is patched; the request:updated emit is skipped when the
updateRequest call throws. Either upstream outcome produces one patch. -/
def bgTrace (env : Env) : List Event :=
  .forwardStart :: (if env.updateOk then [.notifyUpdated] else [])

/-- Trace of forwardRequestAndRespond: on success the upstream response is
relayed first and the patch follows; on failure the patch is written first
and the 502 error is sent last. -/
def syncTrace (env : Env) : List Event :=
  .forwardStart ::
    (match env.outcome with
     | .success _ => .respond .upstream :: (if env.updateOk then [.notifyUpdated] else [])
     | .failure _ => (if env.updateOk then [.notifyUpdated] else []) ++ [.respond .err502])

/-- Dispatch of the webhook route handler after a successful parse (lines
863 to 896 of src/server.js): the request entry is saved and announced, then
the decision matrix on the response clause and the forward target runs. The
request:new emit is skipped when saveRequest throws. -/
def handleParsed (r : ParseResult) (env : Env) : List Event :=
  let pre := Event.save :: (if env.saveOk then [Event.notifyCreated] else [])
  let hasR := r.responseStatus.isSome && r.responseType.isSome
  let hasF := r.forwardUrl.isSome
  if hasR && hasF then
    pre ++ [.respond (.immediate (r.responseStatus.getD 200) (r.responseType.getD .json))]
      ++ bgTrace env
  else if hasF then
    pre ++ syncTrace env
  else if hasR then
    pre ++ [.respond (.immediate (r.responseStatus.getD 200) (r.responseType.getD .json))]
  else
    pre ++ [.respond (.immediate 200 .json)]

/-- The whole webhook route handler: a parse exception is caught by the outer
handler and answered with 500; a parse error or missing id is answered with
400 and nothing is recorded or forwarded; otherwise handleParsed runs. -/
def handleWebhook (path : List Char) (env : Env) : List Event :=
  match parseWebhookPath path with
  | none => [.respond .err500]
  | some r =>
    if r.error.isSome || r.id.isNone then [.respond .err400]
    else handleParsed r env

/-- Whether an event is the saveRequest call. -/
def isSave : Event → Bool
  | .save => true
  | _ => false

/-- Whether an event is the request:new notification. -/
def isCreated : Event → Bool
  | .notifyCreated => true
  | _ => false

/-- Whether an event is the request:updated notification. -/
def isUpdated : Event → Bool
  | .notifyUpdated => true
  | _ => false

/-- Whether an event is the start of an upstream forward. -/
def isForwardStart : Event → Bool
  | .forwardStart => true
  | _ => false

/-- Whether an event is any response to the original client. -/
def isRespondAny : Event → Bool
  | .respond _ => true
  | _ => false

/-- Whether an event is a synthesized immediate response. -/
def isRespondImmediate : Event → Bool
  | .respond (.immediate _ _) => true
  | _ => false

/-- Every event satisfying b is strictly preceded by one satisfying a: the
scan accepts when a is seen first and rejects when b is seen first. -/
def precededBy (a b : Event → Bool) : List Event → Bool
  | [] => true
  | x :: rest => if a x then true else if b x then false else precededBy a b rest

/-- The res: step either sets both halves of the response clause, or only the
error field, or leaves the directive set unchanged. -/
theorem applyRes_shape (ps : List Char) (r : ParseResult) :
    (∃ st ty, applyRes ps r = { r with responseStatus := some st, responseType := some ty }) ∨
    (∃ m, applyRes ps r = { r with error := some m }) ∨ applyRes ps r = r := by
  cases hf : findRes ps with
  | none => right; right; simp [applyRes, hf]
  | some x =>
    obtain ⟨d1, d2, d3, t⟩ := x
    cases hi : innerResMatch (d1 :: d2 :: d3 :: t.chars) with
    | none =>
      right; left
      exact ⟨msgInvalidRes (resSegChars d1 d2 d3 t), by simp [applyRes, hf, hi]⟩
    | some p =>
      obtain ⟨st, ty⟩ := p
      exact .inl ⟨st, ty, by simp [applyRes, hf, hi]⟩

/-- The fullbody step either sets the flag or changes nothing. -/
theorem applyFullbody_shape (ps : List Char) (r : ParseResult) :
    applyFullbody ps r = { r with fullBody := true } ∨ applyFullbody ps r = r := by
  cases hf : findFullbody ps
  · right; simp [applyFullbody, hf]
  · left; simp [applyFullbody, hf]

/-- When the tag step returns, it has changed at most the tag field. -/
theorem applyTag_shape (ps : List Char) (r r2 : ParseResult)
    (h : applyTag ps r = some r2) : ∃ t, r2 = { r with tag := t } := by
  unfold applyTag at h
  cases hf : findTag ps with
  | none =>
    rw [hf] at h
    exact ⟨r.tag, by injection h with h2; exact h2.symm⟩
  | some v =>
    rw [hf] at h
    rw [Option.map_eq_some'] at h
    obtain ⟨t, _, ht⟩ := h
    exact ⟨some t, ht.symm⟩

/-- An accepted candidate URL is written to the forwardUrl field. -/
theorem checkUrl_accepted (u : List Char) (r : ParseResult)
    (h : urlAccepted u = true) : checkUrl u r = { r with forwardUrl := some u } := by
  unfold urlAccepted at h
  unfold checkUrl
  cases ht : tryParseURL u with
  | none => rw [ht] at h; simp at h
  | some url =>
    rw [ht] at h
    have h2 : isHttpProtocol url = true := h
    simp [ht, h2]

/-- A rejected candidate URL only sets the error field. -/
theorem checkUrl_rejected (u : List Char) (r : ParseResult)
    (h : urlAccepted u = false) : ∃ m, checkUrl u r = { r with error := some m } := by
  unfold urlAccepted at h
  unfold checkUrl
  cases ht : tryParseURL u with
  | none => exact ⟨msgBadUrl u, by simp [ht]⟩
  | some url =>
    rw [ht] at h
    have h2 : isHttpProtocol url = false := h
    exact ⟨msgBadProto u, by simp [ht, h2]⟩

/-- The fwd step either sets the forward target, or only the error field, or
leaves the directive set unchanged. -/
theorem applyFwd_shape (ps : List Char) (r : ParseResult) :
    (∃ u, applyFwd ps r = { r with forwardUrl := some u }) ∨
    (∃ m, applyFwd ps r = { r with error := some m }) ∨ applyFwd ps r = r := by
  unfold applyFwd
  cases hb : findFwdBounded ps with
  | some u =>
    cases ha : urlAccepted u
    · obtain ⟨m, hm⟩ := checkUrl_rejected u r ha
      exact .inr (.inl ⟨m, hm⟩)
    · exact .inl ⟨u, checkUrl_accepted u r ha⟩
  | none =>
    cases hl : findFwdLegacy ps with
    | some rem =>
      cases ha : urlAccepted (legacyUrlOf rem)
      · obtain ⟨m, hm⟩ := checkUrl_rejected (legacyUrlOf rem) r ha
        exact .inr (.inl ⟨m, hm⟩)
      · exact .inl ⟨legacyUrlOf rem, checkUrl_accepted (legacyUrlOf rem) r ha⟩
    | none => exact .inr (.inr rfl)

/-- Case analysis of parseWebhookPath: the two early error returns, the
parameterless return, and the full pipeline. -/
theorem parse_cases (path : List Char) (r : ParseResult)
    (h : parseWebhookPath path = some r) :
    (cleanOf path = [] ∧ r = { id := none, error := some msgMissingId }) ∨
    (sanitizeId (idRawOf path) = none ∧ r = { id := none, error := some msgInvalidId }) ∨
    (∃ i, sanitizeId (idRawOf path) = some i ∧ paramStringOf path = [] ∧
      r = { id := some i }) ∨
    (∃ i r3, sanitizeId (idRawOf path) = some i ∧ paramStringOf path ≠ [] ∧
      applyTag (paramStringOf path)
        (applyFullbody (paramStringOf path)
          (applyRes (paramStringOf path) { id := some i })) = some r3 ∧
      r = applyFwd (paramStringOf path) r3) := by
  simp only [parseWebhookPath] at h
  by_cases hc : cleanOf path = []
  · rw [if_pos hc] at h
    exact .inl ⟨hc, by injection h with h2; exact h2.symm⟩
  · rw [if_neg hc] at h
    cases hs : sanitizeId (idRawOf path) with
    | none =>
      simp only [hs] at h
      exact .inr (.inl ⟨rfl, by injection h with h2; exact h2.symm⟩)
    | some i =>
      simp only [hs] at h
      by_cases hp : paramStringOf path = []
      · rw [if_pos hp] at h
        exact .inr (.inr (.inl ⟨i, rfl, hp, by injection h with h2; exact h2.symm⟩))
      · rw [if_neg hp] at h
        rw [Option.map_eq_some'] at h
        obtain ⟨r3, h3, hr⟩ := h
        exact .inr (.inr (.inr ⟨i, r3, rfl, hp, h3, hr.symm⟩))

/-- Fields of the directive set reaching the fwd step: the id is the
sanitized one, no forward target is set yet, and the response clause is
already both-or-neither. -/
theorem pipeline_pre (ps i : List Char) (r3 : ParseResult)
    (h : applyTag ps (applyFullbody ps (applyRes ps { id := some i })) = some r3) :
    r3.id = some i ∧ r3.forwardUrl = none ∧ r3.error = (applyRes ps { id := some i }).error ∧
    (r3.responseStatus.isSome ↔ r3.responseType.isSome) := by
  obtain ⟨t, ht⟩ := applyTag_shape _ _ _ h
  rcases applyFullbody_shape ps (applyRes ps { id := some i }) with h2 | h2 <;>
    rcases applyRes_shape ps { id := some i } with ⟨st, ty, h1⟩ | ⟨m, h1⟩ | h1 <;>
      subst ht <;> rw [h2, h1] <;> simp

/-- Helper for claims about rejected forward candidates: when the fwd step is
known to set the error field on every input record, and the parameter string
is known to be non-empty, the parse result carries an error and no forward
target. -/
theorem parse_fwd_error (path : List Char) (r : ParseResult)
    (h : parseWebhookPath path = some r)
    (hne : paramStringOf path = [] → False)
    (hstep : ∀ r3 : ParseResult,
      ∃ m, applyFwd (paramStringOf path) r3 = { r3 with error := some m }) :
    r.error.isSome = true ∧ r.forwardUrl = none := by
  rcases parse_cases path r h with ⟨_, h1⟩ | ⟨_, h1⟩ | ⟨i, _, hp, h1⟩ | ⟨i, r3, _, _, h3, h1⟩
  · subst h1; exact ⟨rfl, rfl⟩
  · subst h1; exact ⟨rfl, rfl⟩
  · exact absurd hp hne
  · obtain ⟨_, hfwd, _, _⟩ := pipeline_pre _ _ _ h3
    obtain ⟨m, hm⟩ := hstep r3
    subst h1
    rw [hm]
    exact ⟨rfl, by simpa using hfwd⟩

/-- Claim C1, code bug: parseWebhookPath is not exception-free. On a tag
segment whose value is a malformed percent encoding the percent decoding
throws, so no DirectiveSet is returned (modelled as none) and the dispatcher
answers 500 through its catch-all instead of the 400 directive-error path. -/
theorem claim1_parse_throws_on_malformed_tag :
    parseWebhookPath ("/webhook/abc/tag:%zz".data) = none ∧
    handleWebhook ("/webhook/abc/tag:%zz".data)
      ⟨true, true, .failure []⟩ = [.respond .err500] := by
  exact ⟨by decide, by decide⟩

/-- Claim C4, code bug: a res segment whose type is not plain, json or html,
such as res:404xml, is silently ignored: the returned DirectiveSet has no
error and leaves the response clause absent, although the claim (and the
unreachable inner validation branch of the source) requires a non-empty
error. -/
theorem claim4_res404xml_silently_ignored :
    (parseWebhookPath ("/webhook/abc/res:404xml".data)).map
      (fun r => (r.error, r.responseStatus, r.responseType)) =
      some (none, none, none) := by decide

/-- Claim C5, counterexample: a legacy forward candidate with the ftp scheme
does not match the legacy form at all, so parse returns with no error (and no
forward target), contradicting the claim that any forward candidate with a
non-http scheme yields a non-empty error. -/
theorem claim5_counterexample_legacy_ftp_ignored :
    (parseWebhookPath ("/webhook/abc/fwd:ftp://x".data)).map
      (fun r => (r.error, r.forwardUrl)) = some (none, none) := by decide

/-- Claim C5, amended: a bounded forward candidate whose URL is rejected
(non-http scheme or unparsable), and a matched legacy candidate whose cut URL
is rejected, always yield a DirectiveSet with a non-empty error and no
forward target; a legacy candidate without an http or https scheme simply
never matches. -/
theorem claim5_invalid_forward_candidate_rejected :
    (∀ (path : List Char) (r : ParseResult) (u : List Char),
      parseWebhookPath path = some r →
      findFwdBounded (paramStringOf path) = some u →
      urlAccepted u = false →
      r.error.isSome = true ∧ r.forwardUrl = none) ∧
    (∀ (path : List Char) (r : ParseResult) (rem : List Char),
      parseWebhookPath path = some r →
      findFwdBounded (paramStringOf path) = none →
      findFwdLegacy (paramStringOf path) = some rem →
      urlAccepted (legacyUrlOf rem) = false →
      r.error.isSome = true ∧ r.forwardUrl = none) := by
  constructor
  · intro path r u h hb hbad
    refine parse_fwd_error path r h (fun hp => ?_) (fun r3 => ?_)
    · rw [hp] at hb; simp [findFwdBounded, scanSeg] at hb
    · obtain ⟨m, hm⟩ := checkUrl_rejected u r3 hbad
      exact ⟨m, by simp only [applyFwd, hb]; exact hm⟩
  · intro path r rem h hb hl hbad
    refine parse_fwd_error path r h (fun hp => ?_) (fun r3 => ?_)
    · rw [hp] at hl; simp [findFwdLegacy, scanSeg] at hl
    · obtain ⟨m, hm⟩ := checkUrl_rejected (legacyUrlOf rem) r3 hbad
      exact ⟨m, by simp only [applyFwd, hb, hl]; exact hm⟩

/-- Witness for claim C5: the bounded candidate ftp://x is rejected with an
error and no forward target. -/
theorem claim5_witness :
    ({ id := some ("abc".data), error := some (msgBadProto ("ftp://x".data)) } :
        ParseResult).error.isSome = true ∧
    ({ id := some ("abc".data), error := some (msgBadProto ("ftp://x".data)) } :
        ParseResult).forwardUrl = none :=
  claim5_invalid_forward_candidate_rejected.1
    ("/webhook/abc/fwd:$$ftp://x$$".data) _ ("ftp://x".data)
    (by decide) (by decide) (by decide)

/-- Claim C6: the bounded fwd form extracts the URL verbatim together with
the response clause in either segment order, and an accepted bounded
candidate is always the forward target that is honored, taking precedence
over any legacy candidate. -/
theorem claim6_bounded_fwd_extraction :
    ((parseWebhookPath ("/webhook/abc/fwd:$$https://a.b/c?x=1#y$$/res:200json".data)).map
        (fun r => (r.forwardUrl, r.responseStatus, r.responseType, r.error)) =
      some (some ("https://a.b/c?x=1#y".data), some 200, some RType.json, none)) ∧
    ((parseWebhookPath ("/webhook/abc/res:200json/fwd:$$https://a.b/c?x=1#y$$".data)).map
        (fun r => (r.forwardUrl, r.responseStatus, r.responseType, r.error)) =
      some (some ("https://a.b/c?x=1#y".data), some 200, some RType.json, none)) ∧
    (∀ (path : List Char) (r : ParseResult) (u : List Char),
      parseWebhookPath path = some r → r.error = none →
      findFwdBounded (paramStringOf path) = some u →
      urlAccepted u = true →
      r.forwardUrl = some u) := by
  refine ⟨by decide, by decide, ?_⟩
  intro path r u h herr hb hok
  rcases parse_cases path r h with ⟨_, h1⟩ | ⟨_, h1⟩ | ⟨i, _, hp, h1⟩ | ⟨i, r3, _, _, h3, h1⟩
  · subst h1; simp at herr
  · subst h1; simp at herr
  · rw [hp] at hb; simp [findFwdBounded, scanSeg] at hb
  · subst h1
    simp only [applyFwd, hb]
    rw [checkUrl_accepted u r3 hok]

/-- Witness for claim C6: with a legacy candidate first and a bounded
candidate later in the same path, the bounded one is honored. -/
theorem claim6_witness :
    ({ id := some ("abc".data), forwardUrl := some ("http://b.example/y".data) } :
        ParseResult).forwardUrl = some ("http://b.example/y".data) :=
  claim6_bounded_fwd_extraction.2.2
    ("/webhook/abc/fwd:http://legacy.example/x/fwd:$$http://b.example/y$$".data)
    _ ("http://b.example/y".data) (by decide) rfl (by decide) (by decide)

/-- Claim C9: every DirectiveSet returned by parse has responseStatus and
responseType both present or both absent. -/
theorem claim9_response_clause_both_or_neither (path : List Char) (r : ParseResult)
    (h : parseWebhookPath path = some r) :
    (r.responseStatus.isSome ↔ r.responseType.isSome) := by
  rcases parse_cases path r h with ⟨_, h1⟩ | ⟨_, h1⟩ | ⟨i, _, _, h1⟩ | ⟨i, r3, _, _, h3, h1⟩
  · subst h1; simp
  · subst h1; simp
  · subst h1; simp
  · obtain ⟨_, _, _, hiff⟩ := pipeline_pre _ _ _ h3
    subst h1
    rcases applyFwd_shape (paramStringOf path) r3 with ⟨u, he⟩ | ⟨m, he⟩ | he <;>
      rw [he] <;> simpa using hiff

/-- Witness for claim C9 at a concrete parameterless path. -/
theorem claim9_witness :
    (({ id := some ("abc".data) } : ParseResult).responseStatus.isSome ↔
      ({ id := some ("abc".data) } : ParseResult).responseType.isSome) :=
  claim9_response_clause_both_or_neither ("/webhook/abc".data) _ (by decide)

/-- Claim C10: the endpoint id of the returned DirectiveSet is always the
first path segment after the webhook root with every character outside the
id alphabet removed; when that sanitization is empty the set carries an
error, and the dispatcher answers 400 with no saveRequest call, no forward
and no notification. -/
theorem claim10_sanitized_id (path : List Char) (r : ParseResult)
    (h : parseWebhookPath path = some r) :
    r.id = sanitizeId (idRawOf path) ∧
    (r.id = none → r.error.isSome = true) ∧
    (r.id = none → ∀ env : Env, handleWebhook path env = [.respond .err400]) := by
  refine ⟨?_, ?_, ?_⟩
  · rcases parse_cases path r h with ⟨hc, h1⟩ | ⟨hs, h1⟩ | ⟨i, hs, _, h1⟩ | ⟨i, r3, hs, _, h3, h1⟩
    · subst h1; simp [idRawOf, hc, sanitizeId]
    · subst h1; rw [hs]
    · subst h1; rw [hs]
    · obtain ⟨hid, _, _, _⟩ := pipeline_pre _ _ _ h3
      subst h1
      rcases applyFwd_shape (paramStringOf path) r3 with ⟨u, he⟩ | ⟨m, he⟩ | he <;>
        rw [he] <;> simp [hid, hs]
  · intro hid
    rcases parse_cases path r h with ⟨_, h1⟩ | ⟨_, h1⟩ | ⟨i, _, _, h1⟩ | ⟨i, r3, _, _, h3, h1⟩
    · subst h1; rfl
    · subst h1; rfl
    · subst h1; simp at hid
    · obtain ⟨hid3, _, _, _⟩ := pipeline_pre _ _ _ h3
      subst h1
      rcases applyFwd_shape (paramStringOf path) r3 with ⟨u, he⟩ | ⟨m, he⟩ | he <;>
        rw [he] at hid <;> simp [hid3] at hid
  · intro hid env
    simp [handleWebhook, h, hid]

/-- Witness for claim C10: the path with id segment a.b!c is served as the
endpoint abc, and a path whose sanitized id is empty is answered 400. -/
theorem claim10_witness :
    (({ id := some ("abc".data) } : ParseResult).id =
      sanitizeId (idRawOf ("/webhook/a.b!c".data))) ∧
    handleWebhook ("/webhook/!!!".data) ⟨true, true, .failure []⟩ =
      [.respond .err400] := by
  constructor
  · exact (claim10_sanitized_id ("/webhook/a.b!c".data) _ (by decide)).1
  · exact (claim10_sanitized_id ("/webhook/!!!".data)
      { id := none, error := some msgInvalidId } (by decide)).2.2 rfl _

/-- Claim C2: after an error-free parse the dispatcher follows the decision
matrix. With a response clause and a forward target it sends the synthesized
response and only then starts the background forward; with only a forward
target it forwards first and answers with the forward outcome (upstream relay
on success, 502 on failure), never with a synthesized response; with only a
response clause it synthesizes and never forwards; with neither it
synthesizes with the fixed defaults of status 200 and type json. -/
theorem claim2_dispatch_matrix (r : ParseResult) (env : Env) (_herr : r.error = none) :
    (∀ st ty u, r.responseStatus = some st → r.responseType = some ty →
      r.forwardUrl = some u →
      Event.respond (.immediate st ty) ∈ handleParsed r env ∧
      (handleParsed r env).any isForwardStart = true ∧
      precededBy isRespondAny isForwardStart (handleParsed r env) = true) ∧
    (∀ u, (r.responseStatus = none ∨ r.responseType = none) →
      r.forwardUrl = some u →
      (handleParsed r env).any isRespondImmediate = false ∧
      (handleParsed r env).any isForwardStart = true ∧
      precededBy isForwardStart isRespondAny (handleParsed r env) = true ∧
      (∀ up, env.outcome = .success up →
        Event.respond .upstream ∈ handleParsed r env) ∧
      (∀ msg, env.outcome = .failure msg →
        Event.respond .err502 ∈ handleParsed r env)) ∧
    (∀ st ty, r.responseStatus = some st → r.responseType = some ty →
      r.forwardUrl = none →
      handleParsed r env =
        Event.save :: (if env.saveOk then [Event.notifyCreated] else [])
          ++ [Event.respond (.immediate st ty)]) ∧
    ((r.responseStatus = none ∨ r.responseType = none) → r.forwardUrl = none →
      handleParsed r env =
        Event.save :: (if env.saveOk then [Event.notifyCreated] else [])
          ++ [Event.respond (.immediate 200 RType.json)]) := by
  obtain ⟨saveOk, updateOk, outcome⟩ := env
  refine ⟨?_, ?_, ?_, ?_⟩
  · intro st ty u h1 h2 h3
    refine ⟨?_, ?_, ?_⟩ <;> cases saveOk <;> cases updateOk <;>
      simp [handleParsed, h1, h2, h3, bgTrace, precededBy, isRespondAny, isForwardStart]
  · intro u hor h3
    have hnr : (r.responseStatus.isSome && r.responseType.isSome) = false := by
      rcases hor with h | h <;> simp [h]
    refine ⟨?_, ?_, ?_, ?_, ?_⟩
    · cases saveOk <;> cases updateOk <;> cases outcome <;>
        simp [handleParsed, hnr, h3, syncTrace, isRespondImmediate]
    · cases saveOk <;> cases updateOk <;> cases outcome <;>
        simp [handleParsed, hnr, h3, syncTrace, isForwardStart]
    · cases saveOk <;> cases updateOk <;> cases outcome <;>
        simp [handleParsed, hnr, h3, syncTrace, precededBy, isForwardStart,
          isRespondAny, isSave, isCreated]
    · intro up hout
      subst hout
      cases saveOk <;> cases updateOk <;>
        simp [handleParsed, hnr, h3, syncTrace]
    · intro msg hout
      subst hout
      cases saveOk <;> cases updateOk <;>
        simp [handleParsed, hnr, h3, syncTrace]
  · intro st ty h1 h2 h3
    cases saveOk <;> simp [handleParsed, h1, h2, h3]
  · intro hor h3
    have hnr : (r.responseStatus.isSome && r.responseType.isSome) = false := by
      rcases hor with h | h <;> simp [h]
    cases saveOk <;> simp [handleParsed, hnr, h3]

/-- Witness for claim C2: with both a response clause and a forward target
the synthesized response with the parsed status and type is sent. -/
theorem claim2_witness :
    Event.respond (.immediate 201 RType.html) ∈
      handleParsed
        { id := some ("a".data), responseStatus := some 201,
          responseType := some RType.html, forwardUrl := some ("http://x".data) }
        ⟨true, true, .failure []⟩ :=
  ((claim2_dispatch_matrix _ _ rfl).1 201 RType.html ("http://x".data) rfl rfl rfl).1

/-- Claim C3: in synchronous mode a successful upstream call is relayed to
the original client with exactly the upstream status, headers and untruncated
body, while a failed upstream call yields the structured 502 JSON error and a
stored patch with forward status 502 and a non-empty error message. -/
theorem claim3_sync_forward_contract (webhookId method : List Char)
    (reqHeaders : List (List Char × List Char)) (rawBody forwardUrl : List Char)
    (fullBody : Bool) :
    (∀ u : UpstreamResult,
      (forwardRequestAndRespond webhookId method reqHeaders rawBody forwardUrl
          fullBody (.success u)).client =
        { status := u.status, headers := u.headers, body := .text u.body }) ∧
    (∀ msg : List Char,
      (forwardRequestAndRespond webhookId method reqHeaders rawBody forwardUrl
          fullBody (.failure msg)).client =
        { status := 502, headers := [("Content-Type".data, ctJson)],
          body := .jsonFail ("Upstream request failed".data) msg webhookId method 502 } ∧
      (forwardRequestAndRespond webhookId method reqHeaders rawBody forwardUrl
          fullBody (.failure msg)).update.forward_response_status = some 502 ∧
      (forwardRequestAndRespond webhookId method reqHeaders rawBody forwardUrl
          fullBody (.failure msg)).update.forward_response_body =
        some ("Error: ".data ++ msg) ∧
      ("Error: ".data ++ msg) ≠ [] ∧
      (forwardRequestAndRespond webhookId method reqHeaders rawBody forwardUrl
          fullBody (.failure msg)).update.proxy_error = some msg) := by
  refine ⟨fun u => rfl, fun msg => ⟨rfl, rfl, rfl, ?_, rfl⟩⟩
  intro hcon
  rw [List.append_eq_nil] at hcon
  exact absurd hcon.1 (by decide)

/-- Claim C7: in either timing mode, a successful non-JSON upstream body
longer than the limit is stored truncated to the first thousand characters
plus the marker when fullBody is false, and stored in full when fullBody is
true. -/
theorem claim7_truncation (wid method : List Char)
    (reqHeaders : List (List Char × List Char)) (rawBody forwardUrl : List Char)
    (u : UpstreamResult) :
    (containsStr (lookupHeader u.headers ("content-type".data))
        ("application/json".data) = false →
      u.body.length > 1000 →
      ((forwardRequestAndRespond wid method reqHeaders rawBody forwardUrl false
          (.success u)).update.forward_response_body =
        some (u.body.take 1000 ++ truncMarker) ∧
       (forwardRequestInBackground method reqHeaders rawBody forwardUrl false
          (.success u)).forward_response_body =
        some (u.body.take 1000 ++ truncMarker))) ∧
    ((forwardRequestAndRespond wid method reqHeaders rawBody forwardUrl true
        (.success u)).update.forward_response_body = some u.body ∧
     (forwardRequestInBackground method reqHeaders rawBody forwardUrl true
        (.success u)).forward_response_body = some u.body) := by
  constructor
  · intro hjson hlen
    constructor <;>
      simp [forwardRequestAndRespond, forwardRequestInBackground, truncateBody,
        truncLimit, hlen, hjson]
  · constructor <;>
      simp [forwardRequestAndRespond, forwardRequestInBackground, truncateBody]

set_option maxRecDepth 10000 in
/-- Witness for claim C7: a 1001-character HTML body is stored truncated. -/
theorem claim7_witness :
    (forwardRequestAndRespond ("w".data) ("POST".data) [] [] ("http://u.example".data)
        false
        (.success ⟨200, [("content-type".data, "text/html".data)],
          List.replicate 1001 'a'⟩)).update.forward_response_body =
      some ((List.replicate 1001 'a').take 1000 ++ truncMarker) :=
  ((claim7_truncation ("w".data) ("POST".data) [] [] ("http://u.example".data)
      ⟨200, [("content-type".data, "text/html".data)], List.replicate 1001 'a'⟩).1
    (by decide) (by decide)).1

/-- Every dispatch with a successful saveRequest emits the save call and the
created notification as its first two events. -/
theorem handleParsed_cons (r : ParseResult) (updateOk : Bool)
    (outcome : UpstreamOutcome) :
    ∃ tl, handleParsed r ⟨true, updateOk, outcome⟩ =
      Event.save :: Event.notifyCreated :: tl := by
  unfold handleParsed
  have hpre : (if (Env.saveOk ⟨true, updateOk, outcome⟩) = true
      then [Event.notifyCreated] else ([] : List Event)) = [Event.notifyCreated] := rfl
  rw [hpre]
  dsimp only
  split
  · exact ⟨_, rfl⟩
  · split
    · exact ⟨_, rfl⟩
    · split
      · exact ⟨_, rfl⟩
      · exact ⟨_, rfl⟩

/-- A scan for the first save call accepts any trace headed by one. -/
theorem precededBy_sc_save (x : Event → Bool) (tl : List Event) :
    precededBy isSave x (Event.save :: tl) = true := by
  simp [precededBy, isSave]

/-- A scan for the first created notification against any event kind other
than save and created accepts a trace headed by save then created. -/
theorem precededBy_sc_created (x : Event → Bool) (tl : List Event)
    (h1 : x Event.save = false) :
    precededBy isCreated x (Event.save :: Event.notifyCreated :: tl) = true := by
  simp [precededBy, isCreated, h1]

/-- Claim C8: the request entry is persisted (saveRequest plus the created
notification) strictly before any forward starts, and the created
notification strictly precedes any updated notification of the same
dispatch. -/
theorem claim8_persist_before_forward (path : List Char) (env : Env)
    (hs : env.saveOk = true) :
    precededBy isSave isForwardStart (handleWebhook path env) = true ∧
    precededBy isCreated isForwardStart (handleWebhook path env) = true ∧
    precededBy isCreated isUpdated (handleWebhook path env) = true := by
  obtain ⟨saveOk, updateOk, outcome⟩ := env
  have hs2 : saveOk = true := hs
  subst hs2
  cases hp : parseWebhookPath path with
  | none =>
    simp [handleWebhook, hp, precededBy, isSave, isCreated, isForwardStart, isUpdated]
  | some r =>
    cases hg : (r.error.isSome || r.id.isNone)
    · obtain ⟨tl, htl⟩ := handleParsed_cons r updateOk outcome
      simp only [handleWebhook, hp, hg, Bool.false_eq_true, if_false, htl]
      exact ⟨precededBy_sc_save _ _, precededBy_sc_created _ _ rfl,
        precededBy_sc_created _ _ rfl⟩
    · simp [handleWebhook, hp, hg, precededBy, isSave, isCreated, isForwardStart,
        isUpdated]

/-- Witness for claim C8 at a concrete forwarding path and environment. -/
theorem claim8_witness :
    precededBy isSave isForwardStart
      (handleWebhook ("/webhook/abc/fwd:$$http://b.example/y$$".data)
        ⟨true, true, .success ⟨200, [], []⟩⟩) = true ∧
    precededBy isCreated isForwardStart
      (handleWebhook ("/webhook/abc/fwd:$$http://b.example/y$$".data)
        ⟨true, true, .success ⟨200, [], []⟩⟩) = true ∧
    precededBy isCreated isUpdated
      (handleWebhook ("/webhook/abc/fwd:$$http://b.example/y$$".data)
        ⟨true, true, .success ⟨200, [], []⟩⟩) = true :=
  claim8_persist_before_forward ("/webhook/abc/fwd:$$http://b.example/y$$".data)
    ⟨true, true, .success ⟨200, [], []⟩⟩ rfl

end WebHook
